import Mathlib

/-!
# eMMC_Writer.M1: GPIO start-up and LED blink threads (`main.c`)

A shallow embedding of the GPIO part of `main.c` (lines 46-203): the pin table
`dev`, `interval_check`, `gpio_init`, the loop body of `thread_write_func` and
`main`.  Calls into `lib_gpio` are recorded as trace events; the clock and the
button are inputs of each loop iteration.
-/

namespace EmmcWriter

/-! ## Pin numbers and the device table (main.c 46-92) -/

def GPIO_EN_5V : Int := 120
def GPIO_N_FLAG : Int := 118
def GPIO_LED_R0 : Int := 119
def GPIO_LED_G0 : Int := 121
def GPIO_LED_B0 : Int := 106
def GPIO_LED_R1 : Int := 122
def GPIO_LED_G1 : Int := 123
def GPIO_LED_B1 : Int := 13
def GPIO_SW_PB1 : Int := 125
def GPIO_SW_PB2 : Int := 124

def DEV_eMMC : Int := 0
def DEV_SD : Int := 1
def DEV_END : Int := 2

/-- Modelled from the spec: the two direction constants of `lib_gpio/lib_gpio.h`
(the header is not part of the sources at hand); the spec speaks of a pin
direction that is input or output. -/
inductive GpioDir where
  | GPIO_DIR_IN
  | GPIO_DIR_OUT
deriving DecidableEq, Repr

open GpioDir

structure device_gpio where
  dev : Int
  en_5v : Int
  n_flag : Int
  sw_pb : Int
  led_r : Int
  led_g : Int
  led_b : Int
deriving DecidableEq, Repr

/-- The table `dev[DEV_END]`, indexed by `DEV_eMMC` / `DEV_SD` (the program
uses no other index). -/
def dev (i : Int) : device_gpio :=
  if i = DEV_eMMC then
    { dev := DEV_eMMC, en_5v := GPIO_EN_5V, n_flag := GPIO_N_FLAG, sw_pb := GPIO_SW_PB1,
      led_r := GPIO_LED_R0, led_g := GPIO_LED_G0, led_b := GPIO_LED_B0 }
  else
    { dev := DEV_SD, en_5v := 0, n_flag := 0, sw_pb := GPIO_SW_PB2,
      led_r := GPIO_LED_R1, led_g := GPIO_LED_G1, led_b := GPIO_LED_B1 }

/-! ## Calls into lib_gpio, as trace events -/

/-- One call into `lib_gpio`, with its arguments. -/
inductive GpioCall where
  | gpio_export (pin : Int)
  | gpio_direction (pin : Int) (dir : GpioDir)
  | gpio_set_value (pin : Int) (value : Int)
  | gpio_get_value (pin : Int)
deriving DecidableEq, Repr

open GpioCall

/-- The macro `LED_ON(x)`: `gpio_set_value (x, 0)`. -/
def LED_ON (x : Int) : GpioCall := gpio_set_value x 0

/-- The macro `LED_OFF(x)`: `gpio_set_value (x, 1)`. -/
def LED_OFF (x : Int) : GpioCall := gpio_set_value x 1

/-! ## gpio_init (main.c 123-159)

`ex` is the result of `gpio_export` for each pin (0 is failure).  The result is
the trace of library calls, in program order, and the value returned. -/

def gpio_init (ex : Int → Int) : List GpioCall × Int :=
  let tr : List GpioCall := [gpio_export (dev DEV_eMMC).en_5v]
  if ex (dev DEV_eMMC).en_5v = 0 then (tr, 0) else
  let tr := tr ++ [gpio_export (dev DEV_eMMC).n_flag]
  if ex (dev DEV_eMMC).n_flag = 0 then (tr, 0) else
  let tr := tr ++ [gpio_export (dev DEV_eMMC).sw_pb]
  if ex (dev DEV_eMMC).sw_pb = 0 then (tr, 0) else
  let tr := tr ++ [gpio_direction (dev DEV_eMMC).en_5v GPIO_DIR_OUT,
                   gpio_direction (dev DEV_eMMC).n_flag GPIO_DIR_IN,
                   gpio_direction (dev DEV_eMMC).sw_pb GPIO_DIR_IN]
  let tr := tr ++ [gpio_set_value (dev DEV_eMMC).en_5v 0]
  let tr := tr ++ [gpio_export (dev DEV_eMMC).led_r]
  if ex (dev DEV_eMMC).led_r = 0 then (tr, 0) else
  let tr := tr ++ [gpio_export (dev DEV_eMMC).led_g]
  if ex (dev DEV_eMMC).led_g = 0 then (tr, 0) else
  let tr := tr ++ [gpio_export (dev DEV_eMMC).led_b]
  if ex (dev DEV_eMMC).led_b = 0 then (tr, 0) else
  let tr := tr ++ [gpio_direction (dev DEV_eMMC).led_r GPIO_DIR_OUT,
                   gpio_direction (dev DEV_eMMC).led_g GPIO_DIR_OUT,
                   gpio_direction (dev DEV_eMMC).led_b GPIO_DIR_OUT]
  let tr := tr ++ [LED_OFF (dev DEV_eMMC).led_r,
                   LED_OFF (dev DEV_eMMC).led_g,
                   LED_OFF (dev DEV_eMMC).led_b]
  let tr := tr ++ [gpio_export (dev DEV_SD).sw_pb]
  if ex (dev DEV_SD).sw_pb = 0 then (tr, 0) else
  let tr := tr ++ [gpio_direction (dev DEV_eMMC).sw_pb GPIO_DIR_IN]
  let tr := tr ++ [gpio_export (dev DEV_SD).led_r]
  if ex (dev DEV_SD).led_r = 0 then (tr, 0) else
  let tr := tr ++ [gpio_export (dev DEV_SD).led_g]
  if ex (dev DEV_SD).led_g = 0 then (tr, 0) else
  let tr := tr ++ [gpio_export (dev DEV_SD).led_b]
  if ex (dev DEV_SD).led_b = 0 then (tr, 0) else
  let tr := tr ++ [gpio_direction (dev DEV_SD).led_r GPIO_DIR_OUT,
                   gpio_direction (dev DEV_SD).led_g GPIO_DIR_OUT,
                   gpio_direction (dev DEV_SD).led_b GPIO_DIR_OUT]
  let tr := tr ++ [LED_OFF (dev DEV_SD).led_r,
                   LED_OFF (dev DEV_SD).led_g,
                   LED_OFF (dev DEV_SD).led_b]
  (tr, 1)

/-! ## interval_check (main.c 97-120)

`struct timeval` with its two integer fields.  `base_time` is what
`gettimeofday` stored, `t` the caller's stored time.  `interval_ms` is a
`double` in the source; it and `difftime` are read here over exact rational
arithmetic.  The result is the new content of `*t` and the value returned. -/

structure timeval where
  tv_sec : Int
  tv_usec : Int
deriving DecidableEq, Repr

def interval_check (base_time t : timeval) (interval_ms : ℚ) : timeval × Int :=
  if interval_ms ≠ 0 then
    let difftime : ℚ := ((base_time.tv_sec - t.tv_sec : Int) : ℚ) +
      (((base_time.tv_usec : Int) : ℚ) - (((t.tv_usec : Int) : ℚ) + interval_ms * 1000)) / 1000000
    if difftime > 0 then
      ({ tv_sec := base_time.tv_sec, tv_usec := base_time.tv_usec }, 1)
    else (t, 0)
  else
    ({ tv_sec := base_time.tv_sec, tv_usec := base_time.tv_usec }, 1)

/-- A `struct timeval` as a number of microseconds. -/
def timeval.usec (t : timeval) : Int := t.tv_sec * 1000000 + t.tv_usec

/-! ## thread_write_func (main.c 162-191) -/

/-- A value of C type `int` (32 bits, two's complement) from an integer. -/
def wrap_int (x : Int) : Int := (x + 2147483648) % 4294967296 - 2147483648

/-- The locals of `thread_write_func` that live across iterations. -/
structure ThreadState where
  i_time : timeval
  delay_value : Int
  status : Int
deriving DecidableEq, Repr

/-- What `gpio_get_value (pdev->sw_pb, &in_value)` gave in one iteration: the
value returned (0 is failure) and the content of `in_value` after the call. -/
structure ButtonRead where
  ret : Int
  in_value : Int
deriving DecidableEq, Repr

/-- What one iteration did: the value `interval_check` returned and the calls
into `lib_gpio`, in program order. -/
structure Iter where
  fired : Int
  calls : List GpioCall
deriving DecidableEq, Repr

/-- The locals on entry to the loop: `i_time` is not assigned, so it holds
whatever the stack held (`garbage`). -/
def thread_write_init (pdev : device_gpio) (garbage : timeval) : ThreadState :=
  { i_time := garbage,
    delay_value := if pdev.dev = DEV_eMMC then 1000 else 500,
    status := 0 }

/-- One pass through the body of `while (1)`. -/
def thread_write_iter (pdev : device_gpio) (base_time : timeval) (rd : ButtonRead)
    (s : ThreadState) : ThreadState × Iter :=
  let chk := interval_check base_time s.i_time (s.delay_value : ℚ)
  let led : List GpioCall × Int :=
    if chk.2 ≠ 0 then
      if s.status ≠ 0 then
        ([LED_ON pdev.led_r, LED_ON pdev.led_g, LED_ON pdev.led_b], 0)
      else
        ([LED_OFF pdev.led_r, LED_OFF pdev.led_g, LED_OFF pdev.led_b], 1)
    else ([], s.status)
  -- usleep (100 * 1000)
  let calls := led.1 ++ [gpio_get_value pdev.sw_pb]
  let delay_value :=
    if rd.ret ≠ 0 then
      if rd.in_value = 0 then
        if s.delay_value ≠ 0 then wrap_int (s.delay_value - 100)
        else 1000
      else s.delay_value
    else s.delay_value
  ({ i_time := chk.1, delay_value := delay_value, status := led.2 },
   { fired := chk.2, calls := calls })

/-- The loop run for as many iterations as there are inputs (a clock reading
and a button reading each): the locals afterwards and what each iteration did. -/
def thread_write_run (pdev : device_gpio) :
    List (timeval × ButtonRead) → ThreadState → ThreadState × List Iter
  | [], s => (s, [])
  | (now, rd) :: rest, s =>
    let r := thread_write_iter pdev now rd s
    let rs := thread_write_run pdev rest r.1
    (rs.1, r.2 :: rs.2)

/-- The function `thread_write_func` on a finite prefix of its inputs. -/
def thread_write_func (pdev : device_gpio) (garbage : timeval)
    (inputs : List (timeval × ButtonRead)) : ThreadState × List Iter :=
  thread_write_run pdev inputs (thread_write_init pdev garbage)

/-! ## Reading a trace -/

/-- The pins of the `gpio_export` calls of a trace, in order. -/
def exportsOf (tr : List GpioCall) : List Int :=
  tr.filterMap fun c => match c with
    | gpio_export p => some p
    | _ => none

/-- The `(pin, direction)` pairs of the `gpio_direction` calls of a trace. -/
def directionsOf (tr : List GpioCall) : List (Int × GpioDir) :=
  tr.filterMap fun c => match c with
    | gpio_direction p d => some (p, d)
    | _ => none

/-- The `(pin, value)` pairs of the `gpio_set_value` calls of a trace. -/
def writesOf (tr : List GpioCall) : List (Int × Int) :=
  tr.filterMap fun c => match c with
    | gpio_set_value p v => some (p, v)
    | _ => none

/-- The value of the last `gpio_set_value` on `pin` in a trace, if any. -/
def lastWrite (tr : List GpioCall) (pin : Int) : Option Int :=
  ((writesOf tr).reverse.find? fun w => w.1 = pin).map Prod.snd

/-- The ten pins `gpio_init` exports, in program order. -/
def initPins : List Int :=
  [(dev DEV_eMMC).en_5v, (dev DEV_eMMC).n_flag, (dev DEV_eMMC).sw_pb,
   (dev DEV_eMMC).led_r, (dev DEV_eMMC).led_g, (dev DEV_eMMC).led_b,
   (dev DEV_SD).sw_pb, (dev DEV_SD).led_r, (dev DEV_SD).led_g, (dev DEV_SD).led_b]

/-- The exports attempted when the pins are tried in order and the first
failure stops the run: the pins up to and including the first failing one. -/
def attempted (ex : Int → Int) : List Int → List Int
  | [] => []
  | p :: ps => if ex p = 0 then [p] else p :: attempted ex ps

/-- The LED levels written by the `gpio_set_value` calls of one iteration. -/
def Iter.writes (o : Iter) : List (Int × Int) := writesOf o.calls

/-- How many of the first `i` iterations had `interval_check` fire. -/
def firedBefore (outs : List Iter) (i : Nat) : Nat :=
  ((outs.take i).filter fun o => o.fired ≠ 0).length

/-- The pin a library call names. -/
def GpioCall.pin : GpioCall → Int
  | gpio_export p => p
  | gpio_direction p _ => p
  | gpio_set_value p _ => p
  | gpio_get_value p => p

/-- The pins the loop of `thread_write_func` names for a device: the button
and the three LEDs. -/
def threadPins (pdev : device_gpio) : List Int :=
  [pdev.sw_pb, pdev.led_r, pdev.led_g, pdev.led_b]

/-! ## Two threads over one set of pins

The levels of the pins as last written, and the locals of the two threads.  A
step is one loop iteration of one of the threads. -/

structure World where
  pins : Int → Int
  emmc : ThreadState
  sd : ThreadState

/-- The pin levels after a sequence of library calls: `gpio_set_value` stores
the value, the other calls leave the levels as they are. -/
def gpio_apply (pins : Int → Int) : List GpioCall → Int → Int
  | [] => pins
  | gpio_set_value p v :: cs => gpio_apply (Function.update pins p v) cs
  | gpio_export _ :: cs => gpio_apply pins cs
  | gpio_direction _ _ :: cs => gpio_apply pins cs
  | gpio_get_value _ :: cs => gpio_apply pins cs

/-- One iteration of the thread started on `dev[who]`. -/
def world_step (who : Int) (base_time : timeval) (rd : ButtonRead) (w : World) : World :=
  if who = DEV_eMMC then
    let r := thread_write_iter (dev DEV_eMMC) base_time rd w.emmc
    { pins := gpio_apply w.pins r.2.calls, emmc := r.1, sd := w.sd }
  else
    let r := thread_write_iter (dev DEV_SD) base_time rd w.sd
    { pins := gpio_apply w.pins r.2.calls, emmc := w.emmc, sd := r.1 }

/-! ## main (main.c 194-203) -/

/-- The start routine handed to `pthread_create`. -/
inductive StartRoutine where
  | thread_write_func
deriving DecidableEq, Repr

/-- What `main` does, in program order.  The argument of `pthread_create` is
the table entry its pointer argument points to. -/
inductive MainEvent where
  | gpio (c : GpioCall)
  | fprintf_stderr (msg : String)
  | pthread_create (start_routine : StartRoutine) (arg : device_gpio)
  | sleep (seconds : Int)
deriving DecidableEq, Repr

/-- The function `main`, with `fuel` passes through `while (1) sleep (1)`.
The second component is the value returned, `none` while the loop runs. -/
def main (ex : Int → Int) (fuel : Nat) : List MainEvent × Option Int :=
  let r := gpio_init ex
  let tr := r.1.map MainEvent.gpio
  if r.2 = 0 then
    (tr ++ [MainEvent.fprintf_stderr "gpio init error!\n"], some 0)
  else
    let tr := tr ++ [MainEvent.pthread_create StartRoutine.thread_write_func (dev DEV_eMMC)]
    let tr := tr ++ [MainEvent.pthread_create StartRoutine.thread_write_func (dev DEV_SD)]
    (tr ++ List.replicate fuel (MainEvent.sleep 1), none)

/-- The threads created in a trace of `main`: start routine and argument. -/
def threadsOf (tr : List MainEvent) : List (StartRoutine × device_gpio) :=
  tr.filterMap fun e => match e with
    | MainEvent.pthread_create f a => some (f, a)
    | _ => none

/-! # Theorems -/

theorem initPins_eq : initPins = [120, 118, 125, 119, 121, 106, 124, 122, 123, 13] := by decide

theorem dev_eMMC_eq : dev DEV_eMMC = ⟨0, 120, 118, 125, 119, 121, 106⟩ := by decide

theorem dev_SD_eq : dev DEV_SD = ⟨1, 0, 0, 124, 122, 123, 13⟩ := by decide

/-- C1: `gpio_init` returns 1 exactly when the export of each of its ten pins
succeeds and 0 exactly when one fails; the exports it attempts are the pins in
program order up to and including the first failing one, and on failure the
failing export is the last library call made. -/
theorem gpio_init_returns_one_iff_all_exports_succeed (ex : Int → Int) :
    initPins = [120, 118, 125, 119, 121, 106, 124, 122, 123, 13] ∧
    ((gpio_init ex).2 = 1 ↔ ∀ p ∈ initPins, ex p ≠ 0) ∧
    ((gpio_init ex).2 = 0 ↔ ∃ p ∈ initPins, ex p = 0) ∧
    exportsOf (gpio_init ex).1 = attempted ex initPins ∧
    ((gpio_init ex).2 = 0 →
      ∃ p, ex p = 0 ∧ (gpio_init ex).1.getLast? = some (gpio_export p)) := by
  refine ⟨initPins_eq, ?_⟩
  by_cases h0 : ex 120 = 0
  · simp [*, gpio_init, initPins, dev_eMMC_eq, dev_SD_eq, LED_OFF, attempted, exportsOf]
  by_cases h1 : ex 118 = 0
  · simp [*, gpio_init, initPins, dev_eMMC_eq, dev_SD_eq, LED_OFF, attempted, exportsOf]
  by_cases h2 : ex 125 = 0
  · simp [*, gpio_init, initPins, dev_eMMC_eq, dev_SD_eq, LED_OFF, attempted, exportsOf]
  by_cases h3 : ex 119 = 0
  · simp [*, gpio_init, initPins, dev_eMMC_eq, dev_SD_eq, LED_OFF, attempted, exportsOf]
  by_cases h4 : ex 121 = 0
  · simp [*, gpio_init, initPins, dev_eMMC_eq, dev_SD_eq, LED_OFF, attempted, exportsOf]
  by_cases h5 : ex 106 = 0
  · simp [*, gpio_init, initPins, dev_eMMC_eq, dev_SD_eq, LED_OFF, attempted, exportsOf]
  by_cases h6 : ex 124 = 0
  · simp [*, gpio_init, initPins, dev_eMMC_eq, dev_SD_eq, LED_OFF, attempted, exportsOf]
  by_cases h7 : ex 122 = 0
  · simp [*, gpio_init, initPins, dev_eMMC_eq, dev_SD_eq, LED_OFF, attempted, exportsOf]
  by_cases h8 : ex 123 = 0
  · simp [*, gpio_init, initPins, dev_eMMC_eq, dev_SD_eq, LED_OFF, attempted, exportsOf]
  by_cases h9 : ex 13 = 0
  · simp [*, gpio_init, initPins, dev_eMMC_eq, dev_SD_eq, LED_OFF, attempted, exportsOf]
  simp [*, gpio_init, initPins, dev_eMMC_eq, dev_SD_eq, LED_OFF, attempted, exportsOf]

theorem interval_check_eq (base_time t : timeval) (interval_ms : ℚ) :
    interval_check base_time t interval_ms =
      if interval_ms = 0 then (base_time, 1)
      else if ((base_time.usec - t.usec : Int) : ℚ) > interval_ms * 1000 then (base_time, 1)
      else (t, 0) := by
  unfold interval_check timeval.usec
  by_cases h : interval_ms = 0
  · simp [h]
  · have key : ((base_time.tv_sec - t.tv_sec : Int) : ℚ) +
        (((base_time.tv_usec : Int) : ℚ) - (((t.tv_usec : Int) : ℚ) + interval_ms * 1000)) / 1000000 > 0
        ↔ ((base_time.tv_sec * 1000000 + base_time.tv_usec
            - (t.tv_sec * 1000000 + t.tv_usec) : Int) : ℚ) > interval_ms * 1000 := by
      push_cast
      constructor
      · intro hh
        have := mul_pos hh (by norm_num : (0 : ℚ) < 1000000)
        have e : ((base_time.tv_sec : ℚ) - t.tv_sec +
          ((base_time.tv_usec : ℚ) - (t.tv_usec + interval_ms * 1000)) / 1000000) * 1000000
          = (base_time.tv_sec : ℚ) * 1000000 + base_time.tv_usec
            - (t.tv_sec * 1000000 + t.tv_usec) - interval_ms * 1000 := by
          field_simp; ring
        rw [e] at this
        linarith
      · intro hh
        have e : ((base_time.tv_sec : ℚ) - t.tv_sec +
          ((base_time.tv_usec : ℚ) - (t.tv_usec + interval_ms * 1000)) / 1000000)
          = ((base_time.tv_sec : ℚ) * 1000000 + base_time.tv_usec
            - (t.tv_sec * 1000000 + t.tv_usec) - interval_ms * 1000) / 1000000 := by
          field_simp; ring
        rw [gt_iff_lt, e]
        apply div_pos
        · linarith
        · norm_num
    simp only [h, ne_eq, not_false_eq_true, if_true, if_false, key]

theorem interval_check_int (base_time t : timeval) (d : Int) :
    interval_check base_time t (d : ℚ) =
      if d = 0 then (base_time, 1)
      else if base_time.usec - t.usec > d * 1000 then (base_time, 1)
      else (t, 0) := by
  rw [interval_check_eq]
  have h1 : ((d : ℚ) = 0) ↔ d = 0 := by norm_cast
  have h2 : (((base_time.usec - t.usec : Int) : ℚ) > (d : ℚ) * 1000)
      ↔ base_time.usec - t.usec > d * 1000 := by
    rw [gt_iff_lt, gt_iff_lt]; norm_cast
  simp only [h1, h2]

/-- A run of `gpio_init` that returns 1 made exactly the calls of the run in
which every export succeeds. -/
theorem gpio_init_ok_trace (ex : Int → Int) (h : (gpio_init ex).2 = 1) :
    (gpio_init ex).1 = (gpio_init fun _ => 1).1 := by
  revert h
  by_cases h0 : ex 120 = 0
  · simp [*, gpio_init, dev_eMMC_eq, dev_SD_eq]
  by_cases h1 : ex 118 = 0
  · simp [*, gpio_init, dev_eMMC_eq, dev_SD_eq]
  by_cases h2 : ex 125 = 0
  · simp [*, gpio_init, dev_eMMC_eq, dev_SD_eq]
  by_cases h3 : ex 119 = 0
  · simp [*, gpio_init, dev_eMMC_eq, dev_SD_eq]
  by_cases h4 : ex 121 = 0
  · simp [*, gpio_init, dev_eMMC_eq, dev_SD_eq]
  by_cases h5 : ex 106 = 0
  · simp [*, gpio_init, dev_eMMC_eq, dev_SD_eq]
  by_cases h6 : ex 124 = 0
  · simp [*, gpio_init, dev_eMMC_eq, dev_SD_eq]
  by_cases h7 : ex 122 = 0
  · simp [*, gpio_init, dev_eMMC_eq, dev_SD_eq]
  by_cases h8 : ex 123 = 0
  · simp [*, gpio_init, dev_eMMC_eq, dev_SD_eq]
  by_cases h9 : ex 13 = 0
  · simp [*, gpio_init, dev_eMMC_eq, dev_SD_eq]
  simp [*, gpio_init, dev_eMMC_eq, dev_SD_eq]

/-- C2 (the code at the run where every export succeeds): `gpio_init` returns
1 and exports pin 124 (the SD button), yet no `gpio_direction` call names pin
124; the direction of pin 125 (the eMMC button) is set twice instead. -/
theorem gpio_init_sd_button_direction_never_set :
    (gpio_init fun _ => 1).2 = 1 ∧
    (dev DEV_SD).sw_pb = 124 ∧
    124 ∈ exportsOf (gpio_init fun _ => 1).1 ∧
    (∀ d, ((dev DEV_SD).sw_pb, d) ∉ directionsOf (gpio_init fun _ => 1).1) ∧
    directionsOf (gpio_init fun _ => 1).1 =
      [(120, GPIO_DIR_OUT), (118, GPIO_DIR_IN), (125, GPIO_DIR_IN),
       (119, GPIO_DIR_OUT), (121, GPIO_DIR_OUT), (106, GPIO_DIR_OUT),
       (125, GPIO_DIR_IN),
       (122, GPIO_DIR_OUT), (123, GPIO_DIR_OUT), (13, GPIO_DIR_OUT)] := by
  refine ⟨by decide, by decide, by decide, ?_, by decide⟩
  intro d
  cases d <;> decide

/-- C8: after a run of `gpio_init` that returns 1, the last value written to
each of the six LED pins is 1 (off, active low) and the last value written to
the eMMC `en_5v` pin 120 is 0. -/
theorem gpio_init_leaves_leds_off (ex : Int → Int) (h : (gpio_init ex).2 = 1) :
    (∀ p ∈ [(119 : Int), 121, 106, 122, 123, 13], lastWrite (gpio_init ex).1 p = some 1) ∧
    [(dev DEV_eMMC).led_r, (dev DEV_eMMC).led_g, (dev DEV_eMMC).led_b,
     (dev DEV_SD).led_r, (dev DEV_SD).led_g, (dev DEV_SD).led_b] = [119, 121, 106, 122, 123, 13] ∧
    (dev DEV_eMMC).en_5v = 120 ∧
    lastWrite (gpio_init ex).1 120 = some 0 := by
  rw [gpio_init_ok_trace ex h]
  decide

theorem gpio_init_leaves_leds_off_witness :
    (gpio_init fun _ => 1).2 = 1 ∧
    ((∀ p ∈ [(119 : Int), 121, 106, 122, 123, 13],
        lastWrite (gpio_init fun _ => 1).1 p = some 1) ∧
      [(dev DEV_eMMC).led_r, (dev DEV_eMMC).led_g, (dev DEV_eMMC).led_b,
       (dev DEV_SD).led_r, (dev DEV_SD).led_g, (dev DEV_SD).led_b] = [119, 121, 106, 122, 123, 13] ∧
      (dev DEV_eMMC).en_5v = 120 ∧
      lastWrite (gpio_init fun _ => 1).1 120 = some 0) :=
  ⟨by decide, gpio_init_leaves_leds_off (fun _ => 1) (by decide)⟩

/-- C7: over exact arithmetic, with the stored time and the clock reading in
microseconds: for `interval_ms = 0` the call returns 1 and stores the clock
reading; for `interval_ms ≠ 0` it returns 1 exactly when the clock reading
exceeds the stored time by strictly more than `interval_ms * 1000`, storing the
clock reading then, and otherwise returns 0 and leaves the stored time as it
was. -/
theorem interval_check_fires_iff_elapsed (base_time t : timeval) (interval_ms : ℚ) :
    (interval_ms = 0 → interval_check base_time t interval_ms = (base_time, 1)) ∧
    (interval_ms ≠ 0 →
      ((interval_check base_time t interval_ms).2 = 1 ↔
        ((base_time.usec - t.usec : Int) : ℚ) > interval_ms * 1000) ∧
      ((interval_check base_time t interval_ms).2 = 1 →
        (interval_check base_time t interval_ms).1 = base_time) ∧
      ((interval_check base_time t interval_ms).2 ≠ 1 →
        interval_check base_time t interval_ms = (t, 0))) := by
  rw [interval_check_eq]
  constructor
  · intro h; simp [h]
  · intro h
    by_cases hd : ((base_time.usec - t.usec : Int) : ℚ) > interval_ms * 1000
    · rw [if_neg h, if_pos hd]
      exact ⟨⟨fun _ => hd, fun _ => rfl⟩, fun _ => rfl, fun hne => absurd rfl hne⟩
    · rw [if_neg h, if_neg hd]
      have h01 : ¬ ((0 : Int) = 1) := by decide
      exact ⟨⟨fun h0 => absurd h0 h01, fun h1 => absurd h1 hd⟩,
        fun h0 => absurd h0 h01, fun _ => rfl⟩

/-- C3: in one iteration with interval `d = s.delay_value`: when the button
read succeeds and reads 0 the new interval is 1000 for `d = 0` and `d - 100`
otherwise; when the read fails or reads non-zero the interval stays `d`.
(`d` is an `int` for which `d - 100` is an `int` too.) -/
theorem thread_write_iter_delay_value (pdev : device_gpio) (base_time : timeval)
    (rd : ButtonRead) (s : ThreadState)
    (hlo : -2147483648 ≤ s.delay_value - 100) (hhi : s.delay_value ≤ 2147483647) :
    (rd.ret ≠ 0 ∧ rd.in_value = 0 →
      (s.delay_value ≠ 0 →
        (thread_write_iter pdev base_time rd s).1.delay_value = s.delay_value - 100) ∧
      (s.delay_value = 0 →
        (thread_write_iter pdev base_time rd s).1.delay_value = 1000)) ∧
    (rd.ret = 0 ∨ rd.in_value ≠ 0 →
      (thread_write_iter pdev base_time rd s).1.delay_value = s.delay_value) := by
  have hw : wrap_int (s.delay_value - 100) = s.delay_value - 100 := by
    unfold wrap_int; omega
  refine ⟨?_, ?_⟩
  · rintro ⟨h1, h2⟩
    refine ⟨fun h3 => ?_, fun h3 => ?_⟩
    · simp [thread_write_iter, h1, h2, h3, hw]
    · simp [thread_write_iter, h1, h2, h3]
  · rintro (h1 | h2)
    · simp [thread_write_iter, h1]
    · simp [thread_write_iter, h2]

theorem thread_write_iter_delay_value_witness :
    (-2147483648 : Int) ≤ 300 - 100 ∧ (300 : Int) ≤ 2147483647 ∧
    (thread_write_iter (dev DEV_eMMC) ⟨5, 0⟩ ⟨1, 0⟩ ⟨⟨0, 0⟩, 300, 0⟩).1.delay_value = 200 :=
  ⟨by decide, by decide,
    ((thread_write_iter_delay_value (dev DEV_eMMC) ⟨5, 0⟩ ⟨1, 0⟩ ⟨⟨0, 0⟩, 300, 0⟩
      (by decide) (by decide)).1 ⟨by decide, rfl⟩).1 (by decide)⟩

/-! ## The loop of thread_write_func -/

theorem thread_write_iter_delay_inv (pdev : device_gpio) (base_time : timeval)
    (rd : ButtonRead) (s : ThreadState)
    (h : 0 ≤ s.delay_value ∧ s.delay_value ≤ 1000 ∧ s.delay_value % 100 = 0) :
    0 ≤ (thread_write_iter pdev base_time rd s).1.delay_value ∧
    (thread_write_iter pdev base_time rd s).1.delay_value ≤ 1000 ∧
    (thread_write_iter pdev base_time rd s).1.delay_value % 100 = 0 := by
  obtain ⟨h0, h1, h2⟩ := h
  simp only [thread_write_iter]
  split_ifs with a b c
  · have hw : wrap_int (s.delay_value - 100) = s.delay_value - 100 := by
      unfold wrap_int; omega
    rw [hw]; omega
  · omega
  · omega
  · omega

theorem thread_write_run_delay_inv (pdev : device_gpio) :
    ∀ (inputs : List (timeval × ButtonRead)) (s : ThreadState),
      (0 ≤ s.delay_value ∧ s.delay_value ≤ 1000 ∧ s.delay_value % 100 = 0) →
      0 ≤ (thread_write_run pdev inputs s).1.delay_value ∧
      (thread_write_run pdev inputs s).1.delay_value ≤ 1000 ∧
      (thread_write_run pdev inputs s).1.delay_value % 100 = 0 := by
  intro inputs
  induction inputs with
  | nil => intro s h; simpa [thread_write_run] using h
  | cons inp rest ih =>
    obtain ⟨now, rd⟩ := inp
    intro s h
    simp only [thread_write_run]
    exact ih _ (thread_write_iter_delay_inv pdev now rd s h)

/-- C9: `delay_value` starts at 1000 for the eMMC device and at 500 for the SD
device, and after any number of iterations, whatever the clock and the button
gave, it is a multiple of 100 between 0 and 1000. -/
theorem thread_write_func_delay_value_invariant (garbage : timeval)
    (inputs : List (timeval × ButtonRead)) :
    (thread_write_init (dev DEV_eMMC) garbage).delay_value = 1000 ∧
    (thread_write_init (dev DEV_SD) garbage).delay_value = 500 ∧
    ∀ pdev : device_gpio,
      0 ≤ (thread_write_func pdev garbage inputs).1.delay_value ∧
      (thread_write_func pdev garbage inputs).1.delay_value ≤ 1000 ∧
      100 ∣ (thread_write_func pdev garbage inputs).1.delay_value := by
  refine ⟨rfl, rfl, fun pdev => ?_⟩
  have h0 : 0 ≤ (thread_write_init pdev garbage).delay_value ∧
      (thread_write_init pdev garbage).delay_value ≤ 1000 ∧
      (thread_write_init pdev garbage).delay_value % 100 = 0 := by
    simp only [thread_write_init]
    split_ifs <;> decide
  have h := thread_write_run_delay_inv pdev inputs _ h0
  exact ⟨h.1, h.2.1, Int.dvd_of_emod_eq_zero h.2.2⟩

theorem firedBefore_zero (outs : List Iter) : firedBefore outs 0 = 0 := by
  simp [firedBefore]

theorem firedBefore_cons_succ (o : Iter) (outs : List Iter) (j : Nat) :
    firedBefore (o :: outs) (j + 1) = (if o.fired ≠ 0 then 1 else 0) + firedBefore outs j := by
  by_cases h : o.fired = 0
  · simp [firedBefore, List.take, List.filter, h]
  · simp [firedBefore, List.take, List.filter, h]; omega

theorem thread_write_iter_writes (pdev : device_gpio) (base_time : timeval)
    (rd : ButtonRead) (s : ThreadState) :
    (thread_write_iter pdev base_time rd s).2.writes =
      if (thread_write_iter pdev base_time rd s).2.fired ≠ 0 then
        (if s.status ≠ 0 then [(pdev.led_r, 0), (pdev.led_g, 0), (pdev.led_b, 0)]
         else [(pdev.led_r, 1), (pdev.led_g, 1), (pdev.led_b, 1)])
      else [] := by
  simp only [thread_write_iter, Iter.writes]
  split_ifs <;> simp [writesOf, LED_ON, LED_OFF]

theorem thread_write_iter_status (pdev : device_gpio) (base_time : timeval)
    (rd : ButtonRead) (s : ThreadState) :
    (thread_write_iter pdev base_time rd s).1.status =
      if (thread_write_iter pdev base_time rd s).2.fired ≠ 0 then
        (if s.status ≠ 0 then 0 else 1)
      else s.status := by
  simp only [thread_write_iter]
  split_ifs <;> rfl

theorem thread_write_run_writes (pdev : device_gpio) :
    ∀ (inputs : List (timeval × ButtonRead)) (s : ThreadState) (k : Nat),
      (s.status ≠ 0 ↔ k % 2 = 1) →
      ∀ (i : Nat) (o : Iter), (thread_write_run pdev inputs s).2[i]? = some o →
        o.writes = if o.fired ≠ 0 then
            (if (k + firedBefore (thread_write_run pdev inputs s).2 i) % 2 = 0
              then [(pdev.led_r, 1), (pdev.led_g, 1), (pdev.led_b, 1)]
              else [(pdev.led_r, 0), (pdev.led_g, 0), (pdev.led_b, 0)])
          else [] := by
  intro inputs
  induction inputs with
  | nil => intro s k _ i o h; simp [thread_write_run] at h
  | cons inp rest ih =>
    obtain ⟨now, rd⟩ := inp
    intro s k hk i o h
    cases i with
    | zero =>
      simp only [thread_write_run, List.getElem?_cons_zero, Option.some.injEq] at h
      subst h
      rw [thread_write_iter_writes, firedBefore_zero]
      by_cases hs : s.status = 0
      · have : k % 2 = 0 := by
          have := hk.not.mp (by simpa using hs); omega
        simp [hs, this]
      · have : k % 2 = 1 := hk.mp hs
        have h2 : ¬ (k % 2 = 0) := by omega
        simp [hs, h2]
    | succ j =>
      simp only [thread_write_run, List.getElem?_cons_succ] at h
      have hk2 : ((thread_write_iter pdev now rd s).1.status ≠ 0 ↔
          (k + if (thread_write_iter pdev now rd s).2.fired ≠ 0 then 1 else 0) % 2 = 1) := by
        rw [thread_write_iter_status]
        by_cases hf : (thread_write_iter pdev now rd s).2.fired = 0
        · simpa [hf] using hk
        · by_cases hs : s.status = 0
          · have : k % 2 = 0 := by
              have := hk.not.mp (by simpa using hs); omega
            simp [hf, hs]; omega
          · have : k % 2 = 1 := hk.mp hs
            simp [hf, hs]; omega
      have := ih _ _ hk2 j o h
      simp only [thread_write_run]
      simp only [firedBefore_cons_succ]
      simpa only [Nat.add_assoc] using this

theorem thread_write_run_length (pdev : device_gpio) :
    ∀ (inputs : List (timeval × ButtonRead)) (s : ThreadState),
      (thread_write_run pdev inputs s).2.length = inputs.length := by
  intro inputs
  induction inputs with
  | nil => intro s; rfl
  | cons inp rest ih =>
    obtain ⟨now, rd⟩ := inp
    intro s
    simp [thread_write_run, ih]

theorem thread_write_run_get (pdev : device_gpio) :
    ∀ (inputs : List (timeval × ButtonRead)) (s : ThreadState) (i : Nat)
      (h : i < inputs.length),
      (thread_write_run pdev inputs s).2[i]? =
        some (thread_write_iter pdev (inputs.get ⟨i, h⟩).1 (inputs.get ⟨i, h⟩).2
          (thread_write_run pdev (inputs.take i) s).1).2 := by
  intro inputs
  induction inputs with
  | nil => intro s i h; exact absurd h (Nat.not_lt_zero _)
  | cons inp rest ih =>
    obtain ⟨now, rd⟩ := inp
    intro s i h
    cases i with
    | zero => simp [thread_write_run]
    | succ j =>
      have hj : j < rest.length := Nat.lt_of_succ_lt_succ h
      simpa [thread_write_run] using ih (thread_write_iter pdev now rd s).1 j hj

theorem thread_write_run_take_succ (pdev : device_gpio) :
    ∀ (inputs : List (timeval × ButtonRead)) (s : ThreadState) (i : Nat)
      (h : i < inputs.length),
      (thread_write_run pdev (inputs.take (i + 1)) s).1 =
        (thread_write_iter pdev (inputs.get ⟨i, h⟩).1 (inputs.get ⟨i, h⟩).2
          (thread_write_run pdev (inputs.take i) s).1).1 := by
  intro inputs
  induction inputs with
  | nil => intro s i h; exact absurd h (Nat.not_lt_zero _)
  | cons inp rest ih =>
    obtain ⟨now, rd⟩ := inp
    intro s i h
    cases i with
    | zero => simp [thread_write_run]
    | succ j =>
      have hj : j < rest.length := Nat.lt_of_succ_lt_succ h
      simpa [thread_write_run] using ih (thread_write_iter pdev now rd s).1 j hj

theorem thread_write_iter_calls (pdev : device_gpio) (base_time : timeval)
    (rd : ButtonRead) (s : ThreadState) :
    (thread_write_iter pdev base_time rd s).2.calls =
      (thread_write_iter pdev base_time rd s).2.writes.map
        (fun w => gpio_set_value w.1 w.2) ++ [gpio_get_value pdev.sw_pb] := by
  simp only [thread_write_iter, Iter.writes]
  split_ifs <;> simp [writesOf, LED_ON, LED_OFF]

/-- C4: the loop makes one iteration per input.  In iteration `i`, `fired` is
what `interval_check` returned on that iteration's clock reading, the stored
`i_time` and the current `delay_value` (the locals after the first `i`
iterations), and `interval_check`'s stored time is carried into the next
iteration.  The calls of the iteration are its LED writes followed by the
button read.  When `interval_check` fired the writes are one common level on
`led_r`, `led_g`, `led_b` of the thread's device: 1 (all off) when the number
of earlier firings is even, so at the first firing, and 0 (all on) when it is
odd.  When it did not fire there is no write. -/
theorem thread_write_func_led_writes_alternate (pdev : device_gpio) (garbage : timeval)
    (inputs : List (timeval × ButtonRead)) :
    (thread_write_func pdev garbage inputs).2.length = inputs.length ∧
    ∀ i : Fin inputs.length, ∃ o : Iter,
      (thread_write_func pdev garbage inputs).2[i.1]? = some o ∧
      o.fired = (interval_check (inputs.get i).1
        (thread_write_func pdev garbage (inputs.take i.1)).1.i_time
        ((thread_write_func pdev garbage (inputs.take i.1)).1.delay_value : ℚ)).2 ∧
      (thread_write_func pdev garbage (inputs.take (i.1 + 1))).1.i_time =
        (interval_check (inputs.get i).1
          (thread_write_func pdev garbage (inputs.take i.1)).1.i_time
          ((thread_write_func pdev garbage (inputs.take i.1)).1.delay_value : ℚ)).1 ∧
      o.calls = o.writes.map (fun w => gpio_set_value w.1 w.2) ++
        [gpio_get_value pdev.sw_pb] ∧
      o.writes =
        if o.fired ≠ 0 then
          (if firedBefore (thread_write_func pdev garbage inputs).2 i.1 % 2 = 0
            then [(pdev.led_r, 1), (pdev.led_g, 1), (pdev.led_b, 1)]
            else [(pdev.led_r, 0), (pdev.led_g, 0), (pdev.led_b, 0)])
        else [] := by
  refine ⟨thread_write_run_length pdev inputs _, fun i => ?_⟩
  have hget := thread_write_run_get pdev inputs (thread_write_init pdev garbage) i.1 i.2
  have hw := thread_write_run_writes pdev inputs (thread_write_init pdev garbage) 0
    (by simp [thread_write_init]) i.1 _ hget
  refine ⟨_, hget, ?_, ?_, thread_write_iter_calls _ _ _ _, ?_⟩
  · simp only [thread_write_func, thread_write_iter]
  · simp only [thread_write_func]
    rw [thread_write_run_take_succ pdev inputs _ i.1 i.2]
    simp only [thread_write_iter]
  · simpa [thread_write_func] using hw

theorem thread_write_func_led_writes_alternate_witness :
    ((thread_write_func (dev DEV_eMMC) ⟨0, 0⟩
        [(⟨1700000000, 0⟩, ⟨1, 1⟩), (⟨1700000000, 100000⟩, ⟨1, 1⟩),
         (⟨1700000001, 200000⟩, ⟨1, 1⟩)]).2.length = 3) ∧
    (thread_write_func (dev DEV_eMMC) ⟨0, 0⟩
        [(⟨1700000000, 0⟩, ⟨1, 1⟩), (⟨1700000000, 100000⟩, ⟨1, 1⟩),
         (⟨1700000001, 200000⟩, ⟨1, 1⟩)]).2 =
      [⟨1, [gpio_set_value 119 1, gpio_set_value 121 1, gpio_set_value 106 1,
            gpio_get_value 125]⟩,
       ⟨0, [gpio_get_value 125]⟩,
       ⟨1, [gpio_set_value 119 0, gpio_set_value 121 0, gpio_set_value 106 0,
            gpio_get_value 125]⟩] := by
  refine ⟨(thread_write_func_led_writes_alternate (dev DEV_eMMC) ⟨0, 0⟩
    [(⟨1700000000, 0⟩, ⟨1, 1⟩), (⟨1700000000, 100000⟩, ⟨1, 1⟩),
     (⟨1700000001, 200000⟩, ⟨1, 1⟩)]).1, ?_⟩
  simp only [thread_write_func, thread_write_run, thread_write_iter, thread_write_init,
    interval_check_int]
  decide

/-- C10 (the code at two runs that differ only in what `i_time` held on
entry): with the clock at 1700000000 s and the button not pressed, the first
iteration writes the three eMMC LEDs when `i_time` held zeros and writes
nothing when `i_time` held a time in the future. -/
theorem thread_write_func_led_writes_depend_on_i_time :
    (thread_write_func (dev DEV_eMMC) ⟨0, 0⟩ [(⟨1700000000, 0⟩, ⟨1, 1⟩)]).2.map Iter.writes
      = [[(119, 1), (121, 1), (106, 1)]] ∧
    (thread_write_func (dev DEV_eMMC) ⟨1800000000, 0⟩ [(⟨1700000000, 0⟩, ⟨1, 1⟩)]).2.map
      Iter.writes = [[]] := by
  simp only [thread_write_func, thread_write_run, thread_write_iter, thread_write_init,
    interval_check_int]
  decide

/-! ## Two threads -/

theorem gpio_apply_frame (p : Int) :
    ∀ (calls : List GpioCall) (pins : Int → Int),
      (∀ c ∈ calls, c.pin ≠ p) → gpio_apply pins calls p = pins p := by
  intro calls
  induction calls with
  | nil => intro pins _; rfl
  | cons c cs ih =>
    intro pins h
    have hc : c.pin ≠ p := h c (List.mem_cons_self _ _)
    have hcs : ∀ c ∈ cs, c.pin ≠ p := fun x hx => h x (List.mem_cons_of_mem _ hx)
    cases c with
    | gpio_export q => simpa [gpio_apply] using ih pins hcs
    | gpio_direction q d => simpa [gpio_apply] using ih pins hcs
    | gpio_get_value q => simpa [gpio_apply] using ih pins hcs
    | gpio_set_value q v =>
      simp only [gpio_apply]
      rw [ih _ hcs]
      have : p ≠ q := fun e => hc (by simp [GpioCall.pin, e])
      simp [Function.update, this]

theorem thread_write_iter_pins (pdev : device_gpio) (base_time : timeval)
    (rd : ButtonRead) (s : ThreadState) :
    ∀ c ∈ (thread_write_iter pdev base_time rd s).2.calls, c.pin ∈ threadPins pdev := by
  intro c hc
  simp only [thread_write_iter] at hc
  split_ifs at hc <;>
    simp only [LED_ON, LED_OFF, List.cons_append, List.nil_append, List.mem_cons,
      List.mem_singleton, List.not_mem_nil, or_false] at hc
  · rcases hc with h | h | h | h <;> simp [h, GpioCall.pin, threadPins]
  · rcases hc with h | h | h | h <;> simp [h, GpioCall.pin, threadPins]
  · simp [hc, GpioCall.pin, threadPins]

/-- C6: the pins the loop names for `dev[DEV_eMMC]` (125, 119, 121, 106) and
for `dev[DEV_SD]` (124, 122, 123, 13) have none in common, every library call
of an iteration names a pin of the thread's own device, and an iteration of
one thread leaves the locals (interval, on/off status, stored time) and the
level of every pin of the other thread as they were. -/
theorem thread_steps_touch_disjoint_pins (base_time : timeval) (rd : ButtonRead)
    (w : World) :
    threadPins (dev DEV_eMMC) = [125, 119, 121, 106] ∧
    threadPins (dev DEV_SD) = [124, 122, 123, 13] ∧
    (∀ p ∈ threadPins (dev DEV_eMMC), p ∉ threadPins (dev DEV_SD)) ∧
    (∀ (pdev : device_gpio) (s : ThreadState),
      ∀ c ∈ (thread_write_iter pdev base_time rd s).2.calls, c.pin ∈ threadPins pdev) ∧
    ((world_step DEV_eMMC base_time rd w).sd = w.sd ∧
      ∀ p ∈ threadPins (dev DEV_SD),
        (world_step DEV_eMMC base_time rd w).pins p = w.pins p) ∧
    ((world_step DEV_SD base_time rd w).emmc = w.emmc ∧
      ∀ p ∈ threadPins (dev DEV_eMMC),
        (world_step DEV_SD base_time rd w).pins p = w.pins p) := by
  have hdis : ∀ p ∈ threadPins (dev DEV_eMMC), p ∉ threadPins (dev DEV_SD) := by decide
  refine ⟨by decide, by decide, hdis, fun pdev s => thread_write_iter_pins pdev base_time rd s,
    ⟨?_, ?_⟩, ⟨?_, ?_⟩⟩
  · simp [world_step]
  · intro p hp
    have he : (world_step DEV_eMMC base_time rd w).pins =
        gpio_apply w.pins (thread_write_iter (dev DEV_eMMC) base_time rd w.emmc).2.calls := by
      simp [world_step]
    rw [he]
    apply gpio_apply_frame
    intro c hc e
    have := thread_write_iter_pins _ _ _ _ c hc
    rw [e] at this
    exact hdis p this hp
  · simp [world_step, DEV_SD, DEV_eMMC]
  · intro p hp
    have he : (world_step DEV_SD base_time rd w).pins =
        gpio_apply w.pins (thread_write_iter (dev DEV_SD) base_time rd w.sd).2.calls := by
      simp [world_step, DEV_SD, DEV_eMMC]
    rw [he]
    apply gpio_apply_frame
    intro c hc e
    have := thread_write_iter_pins _ _ _ _ c hc
    rw [e] at this
    exact hdis p hp this

/-! ## main -/

theorem threadsOf_gpio (tr : List GpioCall) : threadsOf (tr.map MainEvent.gpio) = [] := by
  induction tr with
  | nil => rfl
  | cons c cs ih => simp [threadsOf]

theorem threadsOf_append (a b : List MainEvent) :
    threadsOf (a ++ b) = threadsOf a ++ threadsOf b := by
  simp [threadsOf]

theorem threadsOf_sleep (n : Nat) (k : Int) :
    threadsOf (List.replicate n (MainEvent.sleep k)) = [] := by
  induction n with
  | zero => rfl
  | succ n ih => simp [threadsOf, List.replicate_succ]

/-- C5: `main` creates threads exactly when `gpio_init` returned non-zero.
When it returned 0, `main` makes the calls of `gpio_init`, writes the error
message and returns 0, creating no thread.  Otherwise it creates two threads
running `thread_write_func`, on `dev[DEV_eMMC]` and then on `dev[DEV_SD]`, and
after that only sleeps, never returning. -/
theorem main_creates_threads_iff_gpio_init_ok (ex : Int → Int) (fuel : Nat) :
    (threadsOf (main ex fuel).1 ≠ [] ↔ (gpio_init ex).2 ≠ 0) ∧
    ((gpio_init ex).2 = 0 →
      main ex fuel = ((gpio_init ex).1.map MainEvent.gpio ++
        [MainEvent.fprintf_stderr "gpio init error!\n"], some 0) ∧
      threadsOf (main ex fuel).1 = []) ∧
    ((gpio_init ex).2 ≠ 0 →
      threadsOf (main ex fuel).1 =
        [(StartRoutine.thread_write_func, dev DEV_eMMC),
         (StartRoutine.thread_write_func, dev DEV_SD)] ∧
      (main ex fuel).1 = (gpio_init ex).1.map MainEvent.gpio ++
        [MainEvent.pthread_create StartRoutine.thread_write_func (dev DEV_eMMC),
         MainEvent.pthread_create StartRoutine.thread_write_func (dev DEV_SD)] ++
        List.replicate fuel (MainEvent.sleep 1) ∧
      (main ex fuel).2 = none) := by
  by_cases h : (gpio_init ex).2 = 0
  · have hm : main ex fuel = ((gpio_init ex).1.map MainEvent.gpio ++
        [MainEvent.fprintf_stderr "gpio init error!\n"], some 0) := by
      simp [main, h]
    have ht : threadsOf (main ex fuel).1 = [] := by
      rw [hm]
      simp only [threadsOf_append, threadsOf_gpio]
      rfl
    exact ⟨by simp [ht, h], fun _ => ⟨hm, ht⟩, fun hne => absurd h hne⟩
  · have hm : main ex fuel = ((gpio_init ex).1.map MainEvent.gpio ++
        [MainEvent.pthread_create StartRoutine.thread_write_func (dev DEV_eMMC),
         MainEvent.pthread_create StartRoutine.thread_write_func (dev DEV_SD)] ++
        List.replicate fuel (MainEvent.sleep 1), none) := by
      simp [main, h]
    have ht : threadsOf (main ex fuel).1 =
        [(StartRoutine.thread_write_func, dev DEV_eMMC),
         (StartRoutine.thread_write_func, dev DEV_SD)] := by
      rw [hm]
      simp only [threadsOf_append, threadsOf_gpio, threadsOf_sleep]
      rfl
    refine ⟨by simp [ht, h], fun h0 => absurd h0 h, fun _ => ⟨ht, ?_, ?_⟩⟩
    · rw [hm]
    · rw [hm]

end EmmcWriter
